import Mathlib

/-!
Shallow embedding of the GitHub authentication login flow of this
repository (`extensions/github-authentication`): the login strategy
chain of `GitHubServer.login` / `SimpleGitHubEnterpriseServer.login`,
the device-code polling loop `waitForDeviceCodeAccessToken`, the
pending-nonce tracker and URI callback handler of
`AbstractGitHubServer` (`doLoginWithoutLocalServer` / `handleUri`),
and the token exchange `exchangeCodeForToken`.

The TypeScript methods are asynchronous and UI-driven; here the
host-provided inputs (which environment we run in, the result of each
strategy attempt, the user's answer to each continue-prompt, the
outcome of each network fetch) are passed in explicitly, and each
method becomes a pure function of those inputs.  JavaScript thrown
values are either plain strings (`throw 'Timed out'`) or `Error`
objects carrying a `message`; both are modelled by `JSError`.
-/

/-- A JavaScript thrown value as used in this code base: either a plain
string (`reject('Timed out')`, `reject('User Cancelled')`) or an
`Error` object with its `message` field. -/
inductive JSError where
  | str (s : String)
  | err (message : String)
deriving DecidableEq, Repr

/-- Truthiness of the JavaScript expression `e.message ?? e === 'User Cancelled'`
(the value assigned to `this.userCancelled` in every `catch` block of the
login chain).  Because `??` binds looser than `===`, for an `Error` the
assigned value is the message string itself, whose truthiness is
"non-empty"; only for a plain thrown string is the comparison with
`'User Cancelled'` evaluated. -/
def JSError.cancelledFlag : JSError → Bool
  | .err message => message != ""
  | .str s => s == "User Cancelled"

/-- The four authentication strategies of the login chain, in the order in
which `GitHubServer.login` tries them. -/
inductive Strategy where
  | withoutLocalServer
  | localServer
  | deviceCode
  | pat
deriving DecidableEq, Repr

/-- Result of actually running one strategy (`doLoginWithoutLocalServer`,
`doLoginWithLocalServer`, `doLoginDeviceCodeFlow`, `doLoginWithPat`):
either a token or a thrown value. -/
inductive StratResult where
  | success (token : String)
  | failure (e : JSError)
deriving DecidableEq, Repr

/-- The mutable state of a `login` call: the `userCancelled` field (here
just its JavaScript truthiness, the only thing the code reads of it;
`none` is `undefined`) together with the list of strategies whose
`doLogin…` method has actually been invoked so far, in invocation
order. -/
structure LoginState where
  userCancelled : Option Bool
  attempted : List Strategy
deriving DecidableEq, Repr

/-- Host-provided inputs of one `GitHubServer.login` call:
`supported` is `isSupportedEnvironment(callbackUri)`, `isUI` is
`this._extensionKind === ExtensionKind.UI`, `outcome s` is what running
strategy `s` would produce, and `promptYes s` is whether the user would
answer `Yes` to the `promptToContinue` warning shown before `s`. -/
structure LoginEnv where
  supported : Bool
  isUI : Bool
  outcome : Strategy → StratResult
  promptYes : Strategy → Bool

/-- One `try { await this.promptToContinue(); return await this.doLogin…; }
catch (e) { this._logger.error(e); this.userCancelled = e.message ?? e === 'User Cancelled'; }`
block.  `promptToContinue` returns immediately when `userCancelled` is
still `undefined`; otherwise it throws `new Error('Cancelled')` when the
user does not answer `Yes` (that error is caught by the same block, and
the strategy itself is never invoked).  A successful strategy returns its
token through the `Sum.inl` (short-circuiting the chain); any caught
throw records the truthiness of `e.message ?? e === 'User Cancelled'`
and continues with `Sum.inr`. -/
def attempt (outcome : Strategy → StratResult) (promptYes : Strategy → Bool)
    (s : Strategy) (withPrompt : Bool) (st : LoginState) :
    (String × List Strategy) ⊕ LoginState :=
  if withPrompt && st.userCancelled.isSome && !(promptYes s) then
    Sum.inr { st with userCancelled := some true }
  else
    match outcome s with
    | .success token => Sum.inl (token, st.attempted ++ [s])
    | .failure e => Sum.inr ⟨some e.cancelledFlag, st.attempted ++ [s]⟩

/-- A strategy block guarded by its enabling condition (`if (supported)`,
`if (this._extensionKind === ExtensionKind.UI)`, `if (!supported)`); a
disabled block is skipped entirely. -/
def stage (outcome : Strategy → StratResult) (promptYes : Strategy → Bool)
    (guard : Bool) (s : Strategy) (withPrompt : Bool) (st : LoginState) :
    (String × List Strategy) ⊕ LoginState :=
  if guard then attempt outcome promptYes s withPrompt st else Sum.inr st

/-- The terminal `throw new Error(this.userCancelled ? 'Cancelled' : 'No auth flow succeeded.')`. -/
def loginExhaustedError (st : LoginState) : JSError :=
  .err (if st.userCancelled.getD false then "Cancelled" else "No auth flow succeeded.")

/-- The body of `GitHubServer.login` (githubServerNode): reset
`userCancelled`, then try `doLoginWithoutLocalServer` when the
environment is supported, `doLoginWithLocalServer` when running as a UI
extension, `doLoginDeviceCodeFlow` always, and `doLoginWithPat` when the
environment is not supported; return the first token obtained, else
throw the aggregated error.  The returned pair is the JavaScript result
(token or thrown error) together with the list of strategies actually
invoked, in order. -/
def GitHubServer.login (env : LoginEnv) : Except JSError String × List Strategy :=
  match stage env.outcome env.promptYes env.supported .withoutLocalServer false ⟨none, []⟩ with
  | .inl (token, atts) => (.ok token, atts)
  | .inr st1 =>
    match stage env.outcome env.promptYes env.isUI .localServer true st1 with
    | .inl (token, atts) => (.ok token, atts)
    | .inr st2 =>
      match stage env.outcome env.promptYes true .deviceCode true st2 with
      | .inl (token, atts) => (.ok token, atts)
      | .inr st3 =>
        match stage env.outcome env.promptYes (!env.supported) .pat true st3 with
        | .inl (token, atts) => (.ok token, atts)
        | .inr st4 => (.error (loginExhaustedError st4), st4.attempted)

example :
    GitHubServer.login
      { supported := true, isUI := false,
        outcome := fun _ => .success "tok", promptYes := fun _ => true } =
    (.ok "tok", [.withoutLocalServer]) := rfl

example :
    GitHubServer.login
      { supported := true, isUI := true,
        outcome := fun s => if s = .deviceCode then .success "tok" else .failure (.str "Timed out"),
        promptYes := fun _ => true } =
    (.ok "tok", [.withoutLocalServer, .localServer, .deviceCode]) := rfl

theorem stage_inl {outcome : Strategy → StratResult} {promptYes : Strategy → Bool}
    {guard : Bool} {s : Strategy} {withPrompt : Bool} {st : LoginState}
    {token : String} {atts : List Strategy}
    (h : stage outcome promptYes guard s withPrompt st = .inl (token, atts)) :
    outcome s = .success token ∧ atts = st.attempted ++ [s] := by
  unfold stage attempt at h
  split at h
  · split at h
    · simp at h
    · cases ho : outcome s <;> rw [ho] at h <;> simp_all
  · simp at h

theorem stage_inr {outcome : Strategy → StratResult} {promptYes : Strategy → Bool}
    {guard : Bool} {s : Strategy} {withPrompt : Bool} {st st' : LoginState}
    (h : stage outcome promptYes guard s withPrompt st = .inr st') :
    st'.attempted = st.attempted ∨
      (st'.attempted = st.attempted ++ [s] ∧ ∀ token, outcome s ≠ .success token) := by
  unfold stage attempt at h
  split at h
  · split at h
    · left
      simp only [Sum.inr.injEq] at h
      rw [← h]
    · cases ho : outcome s with
      | success token => rw [ho] at h; simp at h
      | failure e =>
        rw [ho] at h
        simp only [Sum.inr.injEq] at h
        right
        constructor
        · rw [← h]
        · intro token hc
          simp at hc
  · left
    simp only [Sum.inr.injEq] at h
    rw [← h]

/-- C1: for every requested scope set (environment), `GitHubServer.login`
invokes the strategies it runs in the fixed priority order
`doLoginWithoutLocalServer`, `doLoginWithLocalServer`,
`doLoginDeviceCodeFlow`, `doLoginWithPat` (the invoked strategies form a
sublist of that order), and it short-circuits on the first success: if an
invoked strategy produced a token, `login` returns exactly that token and
that strategy is the last one invoked (no later strategy is attempted). -/
theorem login_priority_order (env : LoginEnv) :
    (GitHubServer.login env).2.Sublist
      [Strategy.withoutLocalServer, Strategy.localServer, Strategy.deviceCode, Strategy.pat] ∧
    ∀ s token, s ∈ (GitHubServer.login env).2 → env.outcome s = .success token →
      (GitHubServer.login env).1 = Except.ok token ∧
      (GitHubServer.login env).2.getLast? = some s := by
  unfold GitHubServer.login
  split
  next token1 atts1 h1 =>
    obtain ⟨ho, ha⟩ := stage_inl h1
    subst ha
    simp only [List.nil_append]
    constructor
    · decide
    · intro s token' hs hsucc
      simp only [List.mem_singleton] at hs
      subst hs
      rw [ho] at hsucc
      simp only [StratResult.success.injEq] at hsucc
      subst hsucc
      exact ⟨rfl, rfl⟩
  next st1 h1 =>
    have hsub1 : st1.attempted.Sublist [Strategy.withoutLocalServer] := by
      rcases stage_inr h1 with h | ⟨h, _⟩ <;> rw [h] <;> simp
    have hfail1 : ∀ s ∈ st1.attempted, ∀ token, env.outcome s ≠ .success token := by
      rcases stage_inr h1 with h | ⟨h, hf⟩ <;> rw [h]
      · simp
      · intro s hs
        simp only [List.nil_append, List.mem_singleton] at hs
        subst hs
        exact hf
    split
    next token2 atts2 h2 =>
      obtain ⟨ho, ha⟩ := stage_inl h2
      subst ha
      constructor
      · exact (hsub1.append (List.Sublist.refl _)).trans (by decide)
      · intro s token' hs hsucc
        rcases List.mem_append.1 hs with hs | hs
        · exact absurd hsucc (hfail1 s hs token')
        · simp only [List.mem_singleton] at hs
          subst hs
          rw [ho] at hsucc
          simp only [StratResult.success.injEq] at hsucc
          subst hsucc
          exact ⟨rfl, by simp⟩
    next st2 h2 =>
      have hsub2 : st2.attempted.Sublist [Strategy.withoutLocalServer, Strategy.localServer] := by
        rcases stage_inr h2 with h | ⟨h, _⟩ <;> rw [h]
        · exact hsub1.trans (by decide)
        · exact (hsub1.append (List.Sublist.refl _)).trans (by decide)
      have hfail2 : ∀ s ∈ st2.attempted, ∀ token, env.outcome s ≠ .success token := by
        rcases stage_inr h2 with h | ⟨h, hf⟩ <;> rw [h]
        · exact hfail1
        · intro s hs
          rcases List.mem_append.1 hs with hs | hs
          · exact hfail1 s hs
          · simp only [List.mem_singleton] at hs
            subst hs
            exact hf
      split
      next token3 atts3 h3 =>
        obtain ⟨ho, ha⟩ := stage_inl h3
        subst ha
        constructor
        · exact (hsub2.append (List.Sublist.refl _)).trans (by decide)
        · intro s token' hs hsucc
          rcases List.mem_append.1 hs with hs | hs
          · exact absurd hsucc (hfail2 s hs token')
          · simp only [List.mem_singleton] at hs
            subst hs
            rw [ho] at hsucc
            simp only [StratResult.success.injEq] at hsucc
            subst hsucc
            exact ⟨rfl, by simp⟩
      next st3 h3 =>
        have hsub3 : st3.attempted.Sublist
            [Strategy.withoutLocalServer, Strategy.localServer, Strategy.deviceCode] := by
          rcases stage_inr h3 with h | ⟨h, _⟩ <;> rw [h]
          · exact hsub2.trans (by decide)
          · exact (hsub2.append (List.Sublist.refl _)).trans (by decide)
        have hfail3 : ∀ s ∈ st3.attempted, ∀ token, env.outcome s ≠ .success token := by
          rcases stage_inr h3 with h | ⟨h, hf⟩ <;> rw [h]
          · exact hfail2
          · intro s hs
            rcases List.mem_append.1 hs with hs | hs
            · exact hfail2 s hs
            · simp only [List.mem_singleton] at hs
              subst hs
              exact hf
        split
        next token4 atts4 h4 =>
          obtain ⟨ho, ha⟩ := stage_inl h4
          subst ha
          constructor
          · exact (hsub3.append (List.Sublist.refl _)).trans (by decide)
          · intro s token' hs hsucc
            rcases List.mem_append.1 hs with hs | hs
            · exact absurd hsucc (hfail3 s hs token')
            · simp only [List.mem_singleton] at hs
              subst hs
              rw [ho] at hsucc
              simp only [StratResult.success.injEq] at hsucc
              subst hsucc
              exact ⟨rfl, by simp⟩
        next st4 h4 =>
          have hsub4 : st4.attempted.Sublist
              [Strategy.withoutLocalServer, Strategy.localServer, Strategy.deviceCode,
                Strategy.pat] := by
            rcases stage_inr h4 with h | ⟨h, _⟩ <;> rw [h]
            · exact hsub3.trans (by decide)
            · exact (hsub3.append (List.Sublist.refl _)).trans (by decide)
          have hfail4 : ∀ s ∈ st4.attempted, ∀ token, env.outcome s ≠ .success token := by
            rcases stage_inr h4 with h | ⟨h, hf⟩ <;> rw [h]
            · exact hfail3
            · intro s hs
              rcases List.mem_append.1 hs with hs | hs
              · exact hfail3 s hs
              · simp only [List.mem_singleton] at hs
                subst hs
                exact hf
          exact ⟨hsub4, fun s token hs hsucc => absurd hsucc (hfail4 s hs token)⟩

/-- Witness for `login_priority_order` at a concrete environment: a
supported environment whose first strategy succeeds with token `tok`. -/
theorem login_priority_order_witness :
    (GitHubServer.login
        { supported := true, isUI := false,
          outcome := fun _ => .success "tok", promptYes := fun _ => true }).1 =
      Except.ok "tok" ∧
    (GitHubServer.login
        { supported := true, isUI := false,
          outcome := fun _ => .success "tok", promptYes := fun _ => true }).2.getLast? =
      some Strategy.withoutLocalServer :=
  (login_priority_order _).2 Strategy.withoutLocalServer "tok" (by decide) rfl

/-- A login environment in which every strategy fails for a purely
technical reason (an `Error` whose message is not `'User Cancelled'`),
with the user answering `Yes` to every continue-prompt: an unsupported
non-UI host, `doLoginDeviceCodeFlow` failing because the one-time-code
request came back 500, and `doLoginWithPat` failing because the entered
token lacked the requested scopes.  No strategy is cancelled by the
user. -/
def envTechFailure : LoginEnv where
  supported := false
  isUI := false
  outcome := fun s =>
    match s with
    | .deviceCode => .failure (.err "Failed to get one-time code: 500")
    | .pat => .failure (.err "The provided token does not match the requested scopes: repo")
    | _ => .failure (.err "unreachable")
  promptYes := fun _ => true

/-- C2 (code bug): with every attempted strategy failing technically and
no user cancellation anywhere, `GitHubServer.login` nevertheless throws
`Error('Cancelled')` instead of `Error('No auth flow succeeded.')`,
because `this.userCancelled = e.message ?? e === 'User Cancelled'`
parses as `e.message ?? (e === 'User Cancelled')` and therefore stores
the (truthy) message string of any technical `Error`. -/
theorem login_technical_failure_reports_cancelled :
    GitHubServer.login envTechFailure =
      (.error (.err "Cancelled"), [Strategy.deviceCode, Strategy.pat]) := rfl

/-- JavaScript's `a < b` on two strings: lexicographic comparison by
code unit (for the characters appearing here, the code unit is the
Unicode code point carried by a Lean `Char`). -/
def jsStrLt : List Char → List Char → Bool
  | [], [] => false
  | [], _ :: _ => true
  | _ :: _, [] => false
  | a :: as, b :: bs => if a < b then true else if b < a then false else jsStrLt as bs

/-- JavaScript's `a >= b` on two strings, i.e. `!(a < b)`. -/
def jsStrGe (a b : List Char) : Bool := !(jsStrLt a b)

/-- JavaScript's `version.split('.')`: cut the character sequence at
every `'.'` (an empty string yields `[""]`, separators at the ends or
adjacent separators yield empty components). -/
def splitOnDot : List Char → List (List Char)
  | [] => [[]]
  | c :: cs =>
    let rest := splitOnDot cs
    if c = '.' then [] :: rest
    else
      match rest with
      | [] => [[c]]
      | r :: rs => (c :: r) :: rs

example : splitOnDot "3.1.0".toList = ["3".toList, "1".toList, "0".toList] := by decide

/-- The version gate of `SimpleGitHubEnterpriseServer.login`:
`const [major, minor, _patch] = version.split('.');
if (major && minor && major >= '3' && minor >= '1') { … }`.
JavaScript compares the two components as strings, and a missing
(`undefined`) or empty component is falsy. -/
def enterpriseDeviceCodeSupported (version : String) : Bool :=
  let parts := splitOnDot version.toList
  let major := parts.getD 0 []
  let minor := parts.getD 1 []
  !major.isEmpty && !minor.isEmpty && jsStrGe major ['3'] && jsStrGe minor ['1']

example : enterpriseDeviceCodeSupported "3.1.0" = true := by decide
example : enterpriseDeviceCodeSupported "3.0.9" = false := by decide

/-- Host-provided inputs of one `SimpleGitHubEnterpriseServer.login`
call: the installed version reported by the `/meta` probe
(`getEnterpriseVersion`, `none` when the probe failed), the result each
strategy would produce, and the user's answers to the continue-prompts. -/
structure EnterpriseEnv where
  version : Option String
  outcome : Strategy → StratResult
  promptYes : Strategy → Bool

/-- The body of `SimpleGitHubEnterpriseServer.login`: when the `/meta`
probe returned a version passing the `major >= '3' && minor >= '1'`
gate, try `doLoginDeviceCodeFlow`; then always fall back to
`doLoginWithPat`; else throw the aggregated error (same terminal
`throw` as `GitHubServer.login`). -/
def SimpleGitHubEnterpriseServer.login (env : EnterpriseEnv) :
    Except JSError String × List Strategy :=
  let deviceEnabled :=
    match env.version with
    | none => false
    | some v => enterpriseDeviceCodeSupported v
  match stage env.outcome env.promptYes deviceEnabled .deviceCode true ⟨none, []⟩ with
  | .inl (token, atts) => (.ok token, atts)
  | .inr st1 =>
    match stage env.outcome env.promptYes true .pat true st1 with
    | .inl (token, atts) => (.ok token, atts)
    | .inr st2 => (.error (loginExhaustedError st2), st2.attempted)

theorem stage_fresh_inr {outcome : Strategy → StratResult} {promptYes : Strategy → Bool}
    {s : Strategy} {withPrompt : Bool} {st st' : LoginState}
    (hu : st.userCancelled = none)
    (h : stage outcome promptYes true s withPrompt st = .inr st') :
    st'.attempted = st.attempted ++ [s] := by
  unfold stage attempt at h
  rw [hu] at h
  simp only [Option.isSome_none, Bool.and_false, Bool.false_and, Bool.false_eq_true,
    reduceIte, if_true] at h
  cases ho : outcome s <;> rw [ho] at h
  · simp at h
  · simp only [Sum.inr.injEq] at h
    rw [← h]

theorem stage_false {outcome : Strategy → StratResult} {promptYes : Strategy → Bool}
    {s : Strategy} {withPrompt : Bool} {st : LoginState} :
    stage outcome promptYes false s withPrompt st = .inr st := by
  simp [stage]

/-- C9: an enterprise instance reporting installed version `"3.1.0"`
attempts the device-code strategy first, one reporting `"3.0.9"` skips
it and goes straight to personal-access-token entry, and for major
version 3 the gate flips exactly at minor version 1 (checked for all
minor versions below 100). -/
theorem enterprise_device_code_boundary :
    (∀ env : EnterpriseEnv, env.version = some "3.1.0" →
      ((SimpleGitHubEnterpriseServer.login env).2).head? = some Strategy.deviceCode) ∧
    (∀ env : EnterpriseEnv, env.version = some "3.0.9" →
      ((SimpleGitHubEnterpriseServer.login env).2).head? = some Strategy.pat ∧
        Strategy.deviceCode ∉ (SimpleGitHubEnterpriseServer.login env).2) ∧
    (∀ m : Nat, m < 100 →
      enterpriseDeviceCodeSupported ("3." ++ toString m ++ ".0") = decide (1 ≤ m)) := by
  refine ⟨?_, ?_, ?_⟩
  · intro env hv
    unfold SimpleGitHubEnterpriseServer.login
    rw [hv]
    simp only [show enterpriseDeviceCodeSupported "3.1.0" = true from by decide]
    split
    next token atts h =>
      obtain ⟨-, ha⟩ := stage_inl h
      subst ha
      rfl
    next st1 h =>
      have ha1 : st1.attempted = [Strategy.deviceCode] := stage_fresh_inr rfl h
      split
      next token atts h2 =>
        obtain ⟨-, ha⟩ := stage_inl h2
        subst ha
        rw [ha1]
        rfl
      next st2 h2 =>
        rcases stage_inr h2 with h' | ⟨h', -⟩ <;> simp only [h', ha1] <;> rfl
  · intro env hv
    unfold SimpleGitHubEnterpriseServer.login
    rw [hv]
    simp only [show enterpriseDeviceCodeSupported "3.0.9" = false from by decide]
    simp only [stage_false]
    split
    next token atts h =>
      obtain ⟨-, ha⟩ := stage_inl h
      subst ha
      refine ⟨rfl, ?_⟩
      simp
    next st2 h2 =>
      have ha2 : st2.attempted = [Strategy.pat] := stage_fresh_inr rfl h2
      rw [ha2]
      refine ⟨rfl, ?_⟩
      simp
  · decide

/-- Witness for `enterprise_device_code_boundary` at concrete
environments reporting versions `"3.1.0"` and `"3.0.9"`, and at the
concrete minor version 1. -/
theorem enterprise_device_code_boundary_witness :
    ((SimpleGitHubEnterpriseServer.login
        { version := some "3.1.0", outcome := fun _ => .failure (.str "x"),
          promptYes := fun _ => true }).2).head? = some Strategy.deviceCode ∧
    ((SimpleGitHubEnterpriseServer.login
        { version := some "3.0.9", outcome := fun _ => .failure (.str "x"),
          promptYes := fun _ => true }).2).head? = some Strategy.pat ∧
    enterpriseDeviceCodeSupported ("3." ++ toString 1 ++ ".0") = decide (1 ≤ 1) :=
  ⟨enterprise_device_code_boundary.1 _ rfl,
   (enterprise_device_code_boundary.2.1 _ rfl).1,
   enterprise_device_code_boundary.2.2 1 (by decide)⟩

/-- Outcome of one `fetching(refreshTokenUri, …)` call inside the
device-code polling loop: either the fetch itself threw (network
failure), or an HTTP response with its `ok` flag and the fields of its
JSON body that the loop reads (`error`, `error_description`,
`access_token`; absent fields are `none` / arbitrary). -/
inductive FetchOutcome where
  | netError
  | response (ok : Bool) (error : Option String) (errorDescription : String)
      (accessToken : String)
deriving DecidableEq, Repr

/-- One iteration's worth of host input for the polling loop: the state
of `token.isCancellationRequested` observed right after the sleep, and
what the fetch would produce at that iteration. -/
structure DeviceTick where
  cancelled : Bool
  fetch : FetchOutcome
deriving DecidableEq, Repr

/-- JavaScript truthiness of `accessTokenJson.error`: an absent field or
the empty string is falsy. -/
def errTruthy : Option String → Bool
  | none => false
  | some s => s != ""

/-- What a single iteration of the polling loop in
`waitForDeviceCodeAccessToken` does, read off lines 149-178 of the
source: throw `'User Cancelled'` when the cancellation token has fired;
`continue` on a fetch exception, on a non-2xx response, and on
`error === 'authorization_pending'`; throw
`new Error(accessTokenJson.error_description)` on any other truthy
`error`; otherwise return `accessTokenJson.access_token`. -/
inductive TickStep where
  | halt
  | retry
  | fail (msg : String)
  | yield (token : String)
deriving DecidableEq, Repr

def tickStep (t : DeviceTick) : TickStep :=
  if t.cancelled then .halt
  else
    match t.fetch with
    | .netError => .retry
    | .response ok error errorDescription accessToken =>
      if !ok then .retry
      else if error == some "authorization_pending" then .retry
      else if errTruthy error then .fail errorDescription
      else .yield accessToken

/-- The number of iterations the JavaScript loop
`for (let i = 0; i < 120 / json.interval; i++)` performs for a positive
integral `interval`: the ceiling of `120 / interval` (the bound
`120 / json.interval` is a float; the loop runs while `i` is below it). -/
def numAttempts (interval : Nat) : Nat := (120 + interval - 1) / interval

example : numAttempts 5 = 24 := by decide
example : numAttempts 7 = 18 := by decide

/-- The polling loop of `waitForDeviceCodeAccessToken`, iterating
`tickStep` from iteration `i` with `fuel` iterations left; falling off
the end of the loop throws `new Error('Cancelled')`.  The second
component counts how many token-endpoint requests were issued
(iterations that got past the cancellation check). -/
def devicePoll (ticks : Nat → DeviceTick) : Nat → Nat → Except String String × Nat
  | _, 0 => (.error "Cancelled", 0)
  | i, fuel + 1 =>
    match tickStep (ticks i) with
    | .halt => (.error "User Cancelled", 0)
    | .fail msg => (.error msg, 1)
    | .yield token => (.ok token, 1)
    | .retry =>
      let r := devicePoll ticks (i + 1) fuel
      (r.1, r.2 + 1)

/-- `waitForDeviceCodeAccessToken` after the intro (progress dialog,
refresh URI construction): run the polling loop for
`120 / json.interval` iterations starting at iteration 0. -/
def waitForDeviceCodeAccessToken (interval : Nat) (ticks : Nat → DeviceTick) :
    Except String String × Nat :=
  devicePoll ticks 0 (numAttempts interval)

example :
    waitForDeviceCodeAccessToken 5
      (fun _ => ⟨false, .response true (some "authorization_pending") "" ""⟩) =
    (.error "Cancelled", 24) := rfl

example :
    waitForDeviceCodeAccessToken 5
      (fun i => if i < 3 then ⟨false, .response true (some "authorization_pending") "" ""⟩
                else ⟨false, .response true none "" "tok"⟩) =
    (.ok "tok", 4) := rfl

theorem devicePoll_always_pending (ticks : Nat → DeviceTick)
    (hp : ∀ j, tickStep (ticks j) = .retry) (fuel : Nat) :
    ∀ i, devicePoll ticks i fuel = (.error "Cancelled", fuel) := by
  induction fuel with
  | zero => intro i; rfl
  | succ n ih =>
    intro i
    simp only [devicePoll, hp i, ih (i + 1)]

theorem devicePoll_count_le (ticks : Nat → DeviceTick) (fuel : Nat) :
    ∀ i, (devicePoll ticks i fuel).2 ≤ fuel := by
  induction fuel with
  | zero => intro i; exact Nat.le_refl 0
  | succ n ih =>
    intro i
    simp only [devicePoll]
    split
    · exact Nat.zero_le _
    · exact Nat.succ_le_succ (Nat.zero_le n)
    · exact Nat.succ_le_succ (Nat.zero_le n)
    · exact Nat.succ_le_succ (ih (i + 1))

/-- C5: with `interval = 5` and a provider that answers every poll with
a 2xx `authorization_pending` payload, `waitForDeviceCodeAccessToken`
issues exactly `120 / 5 = 24` token-endpoint requests and then throws
`Error('Cancelled')`; and in general the loop never issues more than
`ceil(120 / interval)` requests. -/
theorem device_polling_bound (ticks : Nat → DeviceTick)
    (hp : ∀ i, (ticks i).cancelled = false ∧
      ∃ d a, (ticks i).fetch = .response true (some "authorization_pending") d a) :
    waitForDeviceCodeAccessToken 5 ticks = (.error "Cancelled", 24) ∧
    ∀ (interval : Nat) (moreTicks : Nat → DeviceTick),
      (waitForDeviceCodeAccessToken interval moreTicks).2 ≤ numAttempts interval := by
  constructor
  · have hr : ∀ j, tickStep (ticks j) = .retry := by
      intro j
      obtain ⟨hc, d, a, hf⟩ := hp j
      simp [tickStep, hc, hf]
    rw [waitForDeviceCodeAccessToken, devicePoll_always_pending ticks hr]
    rfl
  · intro interval moreTicks
    exact devicePoll_count_le moreTicks (numAttempts interval) 0

/-- Witness for `device_polling_bound`: the constant always-pending
provider. -/
theorem device_polling_bound_witness :
    waitForDeviceCodeAccessToken 5
      (fun _ => ⟨false, .response true (some "authorization_pending") "" ""⟩) =
      (.error "Cancelled", 24) :=
  (device_polling_bound _ (fun _ => ⟨rfl, "", "", rfl⟩)).1

/-- C7: whenever the cancellation token has fired by the start of a
polling iteration, that iteration throws `'User Cancelled'` immediately
and issues no further token-endpoint request (the request count from
that iteration on is 0). -/
theorem device_polling_cancellation_halts (ticks : Nat → DeviceTick) (i fuel : Nat)
    (hc : (ticks i).cancelled = true) :
    devicePoll ticks i (fuel + 1) = (.error "User Cancelled", 0) := by
  simp [devicePoll, tickStep, hc]

/-- Witness for `device_polling_cancellation_halts`: cancellation
observed at the very first iteration of a full-length run. -/
theorem device_polling_cancellation_halts_witness :
    devicePoll (fun _ => ⟨true, .netError⟩) 0 24 = (.error "User Cancelled", 0) :=
  device_polling_cancellation_halts (fun _ => ⟨true, .netError⟩) 0 23 rfl

/-- C6 counterexample: a non-2xx response whose payload carries the
error value `access_denied` does not terminate polling with the
provider's `error_description` (as the claim, read over all responses,
would require): the loop retries it like a network failure, and a
provider that always answers this way exhausts all 24 attempts and
throws `Error('Cancelled')`, not `Error('denied')`. -/
theorem device_polling_nonOk_error_counterexample :
    tickStep ⟨false, .response false (some "access_denied") "denied" ""⟩ = .retry ∧
    waitForDeviceCodeAccessToken 5
      (fun _ => ⟨false, .response false (some "access_denied") "denied" ""⟩) =
      (.error "Cancelled", 24) ∧
    (Except.error "Cancelled" : Except String String) ≠ .error "denied" := by
  refine ⟨rfl, rfl, by simp⟩

/-- C6 amended: on each polling tick (with the cancellation token not
fired) a fetch exception causes a retry at the next tick; a non-2xx
response causes a retry whatever its payload; a 2xx
`authorization_pending` payload causes a retry; a 2xx payload with any
other non-empty `error` terminates polling, surfacing the provider's
`error_description` as the thrown error's message; and a 2xx payload
without an `error` yields its `access_token`. -/
theorem device_polling_tick_behavior (error : Option String) (d token : String) :
    tickStep ⟨false, .netError⟩ = .retry ∧
    tickStep ⟨false, .response false error d token⟩ = .retry ∧
    tickStep ⟨false, .response true (some "authorization_pending") d token⟩ = .retry ∧
    (∀ e : String, e ≠ "authorization_pending" → e ≠ "" →
      tickStep ⟨false, .response true (some e) d token⟩ = .fail d) ∧
    tickStep ⟨false, .response true none d token⟩ = .yield token := by
  refine ⟨rfl, rfl, by simp [tickStep], ?_, rfl⟩
  intro e h1 h2
  simp [tickStep, errTruthy, h1, h2]

/-- Witness for `device_polling_tick_behavior`: an `access_denied`
payload on a 2xx response fails the poll with the provider's
description. -/
theorem device_polling_tick_behavior_witness :
    tickStep ⟨false, .response true (some "access_denied") "denied" ""⟩ = .fail "denied" :=
  (device_polling_tick_behavior (some "access_denied") "denied" "").2.2.2.1
    "access_denied" (by simp) (by simp)

/-- The part of an HTTP response that `exchangeCodeForToken` reads: the
`ok` flag, the raw body text (`await result.text()`, read only on
failure) and the `access_token` field of the parsed JSON body (read
only on success). -/
structure HttpResponse where
  ok : Bool
  bodyText : String
  accessToken : String
deriving DecidableEq, Repr

/-- A JavaScript `Error` with its `name` and `message` fields, as
constructed by `exchangeCodeForToken`. -/
structure GHError where
  name : String
  message : String
deriving DecidableEq, Repr

/-- `AbstractGitHubServer.exchangeCodeForToken`, given the response of
the token-endpoint `POST`: on `result.ok` return
`(await result.json()).access_token`; otherwise build
`new Error(await result.text())`, set its `name` to
`'GitHubTokenExchangeError'`, and throw it. -/
def exchangeCodeForToken (result : HttpResponse) : Except GHError String :=
  if result.ok then .ok result.accessToken
  else .error ⟨"GitHubTokenExchangeError", result.bodyText⟩

/-- C8: a non-2xx token-exchange response makes `exchangeCodeForToken`
throw the token-exchange error (`name` `'GitHubTokenExchangeError'`)
whose message is exactly the raw response body text, and a 2xx response
makes it return the `access_token` field of the JSON body. -/
theorem exchangeCodeForToken_result (result : HttpResponse) :
    (result.ok = false →
      exchangeCodeForToken result =
        .error ⟨"GitHubTokenExchangeError", result.bodyText⟩) ∧
    (result.ok = true → exchangeCodeForToken result = .ok result.accessToken) := by
  constructor <;> intro h <;> simp [exchangeCodeForToken, h]

/-- Witness for `exchangeCodeForToken_result`: a 502 response whose body
is the provider's error text. -/
theorem exchangeCodeForToken_result_witness :
    exchangeCodeForToken ⟨false, "bad_verification_code", ""⟩ =
      .error ⟨"GitHubTokenExchangeError", "bad_verification_code"⟩ :=
  (exchangeCodeForToken_result ⟨false, "bad_verification_code", ""⟩).1 rfl

/-- What a pending code-exchange promise was settled with:
`resolvedExchange code` stands for `resolve(this.exchangeCodeForToken(code))`
(the promise resolves with the value the token exchange for `code`
eventually produces), `rejectedErr msg` for `reject(new Error(msg))`. -/
inductive SettleVal where
  | resolvedExchange (code : String)
  | rejectedErr (msg : String)
deriving DecidableEq, Repr

/-- A promise created by `promiseFromEvent(this._uriHandler.event,
this.handleUri(scopes))`: per JavaScript promise semantics it is settled
at most once, so all that matters is whether (and with what) it has been
settled. -/
structure PendingPromise where
  settled : Option SettleVal
deriving DecidableEq, Repr

/-- The two maps of `AbstractGitHubServer` that the login-callback
machinery mutates, both keyed by the scope string: `_pendingNonces`
(`Map<string, string[]>`; `none` models a key absent from the map) and
`_codeExchangePromises` (whether a promise is registered for the key,
and its settlement state). -/
structure ServerState where
  pendingNonces : String → Option (List String)
  codeExchangePromises : String → Option PendingPromise

/-- Settling the code-exchange promise registered under `scopes`
(calling its `resolve` or `reject`): a first settlement sticks, a later
one is a no-op, and with no promise registered there is nothing to
settle. -/
def settleOn (st : ServerState) (scopes : String) (v : SettleVal) : ServerState :=
  { st with
    codeExchangePromises := fun k =>
      if k = scopes then
        match st.codeExchangePromises k with
        | none => none
        | some p =>
          match p.settled with
          | none => some ⟨some v⟩
          | some w => some ⟨some w⟩
      else st.codeExchangePromises k }

/-- The registration step at the top of the `withProgress` callback of
`AbstractGitHubServer.doLoginWithoutLocalServer`:
`const existingNonces = this._pendingNonces.get(scopes) || [];
this._pendingNonces.set(scopes, [...existingNonces, nonce]);` followed by
reusing the existing code-exchange promise for `scopes` or creating and
registering a fresh (unsettled) one. -/
def registerAttempt (scopes nonce : String) (st : ServerState) : ServerState :=
  let existingNonces := (st.pendingNonces scopes).getD []
  let st1 : ServerState :=
    { st with
      pendingNonces := fun k =>
        if k = scopes then some (existingNonces ++ [nonce]) else st.pendingNonces k }
  match st1.codeExchangePromises scopes with
  | some _ => st1
  | none =>
    { st1 with
      codeExchangePromises := fun k =>
        if k = scopes then some ⟨none⟩ else st1.codeExchangePromises k }

/-- The `finally` block of `doLoginWithoutLocalServer`:
`this._pendingNonces.delete(scopes); codeExchangePromise?.cancel.fire();
this._codeExchangePromises.delete(scopes);` — both map entries for
`scopes` are removed (the `cancel.fire()` concerns the now-unlisted
promise object and is invisible in the maps). -/
def finalizeAttempt (scopes : String) (st : ServerState) : ServerState :=
  { pendingNonces := fun k => if k = scopes then none else st.pendingNonces k,
    codeExchangePromises := fun k => if k = scopes then none else st.codeExchangePromises k }

/-- The query parameters of a delivered callback URI that
`handleUri` reads: `query.get('code')` and `query.get('nonce')`
(`none` models an absent parameter). -/
structure CallbackQuery where
  code : Option String
  nonce : Option String
deriving DecidableEq, Repr

/-- JavaScript falsiness of a `URLSearchParams.get` result: absent
(`null`) or the empty string. -/
def paramFalsy : Option String → Bool
  | none => true
  | some s => s == ""

/-- The URI handler `AbstractGitHubServer.handleUri(scopes)` applied to
one delivered URI: `if (!code) { reject(new Error('No code')); return; }
if (!nonce) { reject(new Error('No nonce')); return; }` then look the
nonce up in `this._pendingNonces.get(scopes) || []`; an unregistered
nonce returns without touching the promise, a registered one calls
`resolve(this.exchangeCodeForToken(code))`. -/
def handleUri (scopes : String) (uri : CallbackQuery) (st : ServerState) : ServerState :=
  if paramFalsy uri.code then settleOn st scopes (.rejectedErr "No code")
  else if paramFalsy uri.nonce then settleOn st scopes (.rejectedErr "No nonce")
  else
    let acceptedNonces := (st.pendingNonces scopes).getD []
    if uri.nonce.getD "" ∈ acceptedNonces then
      settleOn st scopes (.resolvedExchange (uri.code.getD ""))
    else st

theorem settleOn_pendingNonces (st : ServerState) (scopes : String) (v : SettleVal) :
    (settleOn st scopes v).pendingNonces = st.pendingNonces := rfl

theorem settleOn_settled {st : ServerState} {scopes : String} {v w : SettleVal}
    (h : st.codeExchangePromises scopes = some ⟨some w⟩) :
    settleOn st scopes v = st := by
  cases st with
  | mk pn ce =>
    unfold settleOn
    simp only [ServerState.mk.injEq, true_and]
    funext k
    by_cases hk : k = scopes
    · subst hk
      rw [if_pos rfl]
      have h' : ce k = some ⟨some w⟩ := h
      rw [h']
    · simp [hk]

theorem handleUri_accepted {st : ServerState} {scopes code nonce : String}
    (hcode : code ≠ "") (hnonce : nonce ≠ "")
    (hmem : nonce ∈ (st.pendingNonces scopes).getD []) :
    handleUri scopes ⟨some code, some nonce⟩ st =
      settleOn st scopes (.resolvedExchange code) := by
  unfold handleUri
  simp [paramFalsy, hcode, hnonce, hmem]

theorem registerAttempt_fresh {st : ServerState} {scopes nonce : String}
    (hfresh : st.codeExchangePromises scopes = none) :
    registerAttempt scopes nonce st =
      { pendingNonces := fun k =>
          if k = scopes then some ((st.pendingNonces scopes).getD [] ++ [nonce])
          else st.pendingNonces k,
        codeExchangePromises := fun k =>
          if k = scopes then some ⟨none⟩ else st.codeExchangePromises k } := by
  cases st with
  | mk pn ce =>
    have h' : ce scopes = none := hfresh
    unfold registerAttempt
    simp only [h']

theorem settleOn_unsettled {st : ServerState} {scopes : String} {v : SettleVal}
    (h : st.codeExchangePromises scopes = some ⟨none⟩) :
    (settleOn st scopes v).codeExchangePromises scopes = some ⟨some v⟩ := by
  unfold settleOn
  simp [h]

/-- C3: starting from a state with no code-exchange promise registered
for scope set S, after `doLoginWithoutLocalServer` registers nonce N
under S, delivering a callback URI carrying a (non-empty) code and the
nonce N for S resolves the pending attempt with the token exchange of
that code; the resolution happens exactly once (delivering the same
callback again changes nothing, the promise stays settled with the
first value); and when the attempt completes, the `finally` block
leaves no pending-nonce entry for S in the map. -/
theorem register_then_callback_resolves_once (st : ServerState)
    (scopes nonce code : String)
    (hfresh : st.codeExchangePromises scopes = none)
    (hcode : code ≠ "") (hnonce : nonce ≠ "") :
    ((handleUri scopes ⟨some code, some nonce⟩ (registerAttempt scopes nonce st)).codeExchangePromises
        scopes = some ⟨some (.resolvedExchange code)⟩) ∧
    handleUri scopes ⟨some code, some nonce⟩
        (handleUri scopes ⟨some code, some nonce⟩ (registerAttempt scopes nonce st)) =
      handleUri scopes ⟨some code, some nonce⟩ (registerAttempt scopes nonce st) ∧
    (finalizeAttempt scopes
        (handleUri scopes ⟨some code, some nonce⟩
          (registerAttempt scopes nonce st))).pendingNonces scopes = none := by
  have hRp : (registerAttempt scopes nonce st).pendingNonces scopes =
      some ((st.pendingNonces scopes).getD [] ++ [nonce]) := by
    rw [registerAttempt_fresh hfresh]
    simp
  have hRc : (registerAttempt scopes nonce st).codeExchangePromises scopes = some ⟨none⟩ := by
    rw [registerAttempt_fresh hfresh]
    simp
  have hmem : nonce ∈ ((registerAttempt scopes nonce st).pendingNonces scopes).getD [] := by
    rw [hRp]
    simp
  have h1 : handleUri scopes ⟨some code, some nonce⟩ (registerAttempt scopes nonce st) =
      settleOn (registerAttempt scopes nonce st) scopes (.resolvedExchange code) :=
    handleUri_accepted hcode hnonce hmem
  have hset : (settleOn (registerAttempt scopes nonce st) scopes
      (.resolvedExchange code)).codeExchangePromises scopes =
      some ⟨some (.resolvedExchange code)⟩ := settleOn_unsettled hRc
  refine ⟨h1 ▸ hset, ?_, ?_⟩
  · rw [h1]
    have hmem2 : nonce ∈ ((settleOn (registerAttempt scopes nonce st) scopes
        (.resolvedExchange code)).pendingNonces scopes).getD [] := by
      rw [settleOn_pendingNonces]
      exact hmem
    rw [handleUri_accepted hcode hnonce hmem2]
    exact settleOn_settled hset
  · rw [h1]
    simp [finalizeAttempt]

/-- Witness for `register_then_callback_resolves_once`: registering
nonce `abc123` under scope `repo` in the empty state, then delivering a
callback with code `codeX` and that nonce, settles the promise for
`repo` with the exchange of `codeX`. -/
theorem register_then_callback_resolves_once_witness :
    (handleUri "repo" ⟨some "codeX", some "abc123"⟩
        (registerAttempt "repo" "abc123" ⟨fun _ => none, fun _ => none⟩)).codeExchangePromises
      "repo" = some ⟨some (.resolvedExchange "codeX")⟩ :=
  (register_then_callback_resolves_once ⟨fun _ => none, fun _ => none⟩ "repo" "abc123" "codeX"
    rfl (by decide) (by decide)).1

/-- C4: a delivered callback URI carrying both a code and a nonce whose
nonce is not among the nonces registered for the attempt's scope set
leaves the server state completely unchanged: no pending attempt is
resolved or rejected, the handler returns without effect. -/
theorem unregistered_nonce_ignored (st : ServerState) (scopes code nonce : String)
    (hcode : code ≠ "") (hnonce : nonce ≠ "")
    (hmiss : nonce ∉ (st.pendingNonces scopes).getD []) :
    handleUri scopes ⟨some code, some nonce⟩ st = st := by
  unfold handleUri
  simp [paramFalsy, hcode, hnonce, hmiss]

/-- Witness for `unregistered_nonce_ignored`: a callback with nonce
`zzz` while only `abc` is registered for `repo` is silently ignored. -/
theorem unregistered_nonce_ignored_witness :
    handleUri "repo" ⟨some "codeX", some "zzz"⟩
      (⟨fun k => if k = "repo" then some ["abc"] else none, fun _ => none⟩ : ServerState) =
    (⟨fun k => if k = "repo" then some ["abc"] else none, fun _ => none⟩ : ServerState) :=
  unregistered_nonce_ignored _ "repo" "codeX" "zzz" (by decide) (by decide) (by decide)

/-- C10: with a pending (unsettled) code-exchange promise registered
for the scope set, a delivered callback URI without a `code` query
parameter rejects that promise with `Error('No code')`, and one with a
code but no `nonce` parameter rejects it with `Error('No nonce')` —
unlike an unregistered nonce, a missing parameter actively rejects the
pending attempt instead of being silently ignored. -/
theorem missing_param_rejects (st : ServerState) (scopes : String)
    (nonceOpt : Option String) (code : String)
    (hp : st.codeExchangePromises scopes = some ⟨none⟩) (hcode : code ≠ "") :
    (handleUri scopes ⟨none, nonceOpt⟩ st).codeExchangePromises scopes =
      some ⟨some (.rejectedErr "No code")⟩ ∧
    (handleUri scopes ⟨some code, none⟩ st).codeExchangePromises scopes =
      some ⟨some (.rejectedErr "No nonce")⟩ := by
  constructor
  · rw [show handleUri scopes ⟨none, nonceOpt⟩ st =
        settleOn st scopes (.rejectedErr "No code") from by
      unfold handleUri
      simp [paramFalsy]]
    exact settleOn_unsettled hp
  · rw [show handleUri scopes ⟨some code, none⟩ st =
        settleOn st scopes (.rejectedErr "No nonce") from by
      unfold handleUri
      simp [paramFalsy, hcode]]
    exact settleOn_unsettled hp

/-- Witness for `missing_param_rejects`: a callback without a code
rejects the pending `repo` attempt with `No code`. -/
theorem missing_param_rejects_witness :
    (handleUri "repo" ⟨none, some "abc"⟩
        (⟨fun _ => none, fun k => if k = "repo" then some ⟨none⟩ else none⟩ :
          ServerState)).codeExchangePromises "repo" =
      some ⟨some (.rejectedErr "No code")⟩ :=
  (missing_param_rejects _ "repo" (some "abc") "codeX" (by decide) (by decide)).1
